import Mathlib

/-!
Verification of the Data_Analysis_Agent analysis-orchestration engine.

This file embeds, as Lean definitions, the parts of the repository that the
specification's claims speak about:

* the code safety validator (`pipeline/nodes/code.py`, `validate_code`);
* the sandboxed executor logic (`pipeline/nodes/code.py`, `execute_code`);
* the planning fallback (`pipeline/nodes/planning.py`, `analyze_intent`);
* the error/response formatting nodes (`pipeline/nodes/explain.py`);
* the workflow graph's conditional edges and retry loop (`pipeline/graph.py`);
* the cache key derivation and fixed-window rate limiter
  (`backend/app/core/cache.py`).

External collaborators (the LLM, CPython's `compile`, `hashlib.md5`, Redis,
the wall clock) are passed in as explicit parameters, so every embedded
function is executable and deterministic.
-/

namespace DataAgent

/-! ## Python string primitives

`pyStartsWith needle hay` is `hay.startswith(needle)` restricted to what we
need; `pyIn needle hay` is Python's substring test `needle in hay`. -/

def isIdentChar (c : Char) : Bool :=
  c.isAlphanum || c = '_'

/-- `charsStartWith needle hay` : `needle` is a prefix of `hay` (char lists). -/
def charsStartWith : List Char → List Char → Bool
  | [], _ => true
  | _ :: _, [] => false
  | c :: cs, d :: ds => c == d && charsStartWith cs ds

/-- `charsContain needle hay` : `needle` occurs as a contiguous sublist of `hay`. -/
def charsContain (needle : List Char) : List Char → Bool
  | [] => charsStartWith needle []
  | d :: ds => charsStartWith needle (d :: ds) || charsContain needle ds

/-- Python's `needle in hay` substring test. -/
def pyIn (needle hay : String) : Bool :=
  charsContain needle.data hay.data

/-- ASCII lowercasing of one character.  `str.lower()` also folds non-ASCII
letters, but every denylist pattern is ASCII, so a non-ASCII character can
never take part in a match either way; ASCII folding is faithful here. -/
def charLower (c : Char) : Char :=
  if 65 ≤ c.toNat ∧ c.toNat ≤ 90 then Char.ofNat (c.toNat + 32) else c

/-- `s.lower()` (ASCII fold, see `charLower`). -/
def pyLower (s : String) : String :=
  ⟨s.data.map charLower⟩

/-- Case-insensitive variant, mirroring `pattern.lower() in code.lower()`. -/
def pyInCI (needle hay : String) : Bool :=
  pyIn (pyLower needle) (pyLower hay)

/-! ## Code safety validator (`pipeline/nodes/code.py`) -/

/-- The fixed denylist `FORBIDDEN_PATTERNS` from `pipeline/nodes/code.py`. -/
def FORBIDDEN_PATTERNS : List String :=
  [ "import os",
    "import sys",
    "import subprocess",
    "import shutil",
    "__import__",
    "eval(",
    "exec(",
    "os.system",
    "os.popen",
    "subprocess.",
    "shutil.",
    ".to_csv(",
    ".to_excel(",
    "rm -rf",
    "DROP TABLE",
    "DELETE FROM",
    "TRUNCATE " ]

/-- The partial state update returned by `validate_code`.
`generated_code` is present only on the success branch (it may carry the
auto-repaired code). -/
structure ValidateOutput where
  code_valid : Bool
  validation_errors : List String
  generated_code : Option String
  deriving Repr, DecidableEq

/-- The `Forbidden pattern detected` errors accumulated by the denylist
loop of `validate_code` (`if pattern.lower() in code.lower()`), in list
order. -/
def forbiddenErrorsOf (code : String) : List String :=
  FORBIDDEN_PATTERNS.filterMap fun pattern =>
    if pyIn (pyLower pattern) (pyLower code) then
      some ("Forbidden pattern detected: " ++ pattern)
    else none

/-- The `Syntax error` entry appended by the compile check of
`validate_code`. -/
def syntaxErrorsOf (compileRes : String → Option String) (code : String) :
    List String :=
  match compileRes code with
  | some msg => ["Syntax error: " ++ msg]
  | none => []

/-- The error appended by the `"result" not in code` check of
`validate_code`. -/
def resultErrorsOf (code : String) : List String :=
  if pyIn "result" code then [] else ["Code must define a 'result' variable"]

/-- The full `errors` list of `validate_code`, in accumulation order. -/
def validationErrorsOf (compileRes : String → Option String) (code : String) :
    List String :=
  forbiddenErrorsOf code ++ syntaxErrorsOf compileRes code ++ resultErrorsOf code

/-- The best-effort pandas-import repair of `validate_code`. -/
def repairedCodeOf (code : String) : String :=
  if ¬ pyIn "import pandas" code ∧ pyIn "pd." code then
    "import pandas as pd\n" ++ code
  else code

/-- `validate_code` from `pipeline/nodes/code.py`.

CPython's `compile(code, "<string>", "exec")` is an external collaborator and
is passed in as `compileRes`: `compileRes code = some msg` models a
`SyntaxError` whose `str(e)` is `msg`, `none` models a successful compile.
The input `generated_code` is `none` when the generation node stored `None`;
Python's `if not code` treats `None` and `""` alike. -/
def validate_code (compileRes : String → Option String) :
    Option String → ValidateOutput
  | none => ⟨false, ["No code generated"], none⟩
  | some code =>
    if code = "" then ⟨false, ["No code generated"], none⟩
    else if (validationErrorsOf compileRes code).isEmpty then
      ⟨true, [], some (repairedCodeOf code)⟩
    else ⟨false, validationErrorsOf compileRes code, none⟩

/-- Spec-side notion for the refinement check of the claim that the validator
rejects code in which "no identifier named `result` is present": an
occurrence of `result` counts as an identifier occurrence when it is not
immediately preceded or followed by an identifier character.  This follows
the spec's words; the source's own check is the plain substring test. -/
def startsIdentOcc : List Char → List Char → Bool
  | needle, [] => needle.isEmpty
  | [], c :: _ => !(isIdentChar c)
  | n :: ns, c :: cs => n == c && startsIdentOcc ns cs

def hasIdentOccAux (needle : List Char) : Bool → List Char → Bool
  | prevIdent, [] => !prevIdent && startsIdentOcc needle []
  | prevIdent, c :: cs =>
    (!prevIdent && startsIdentOcc needle (c :: cs)) ||
      hasIdentOccAux needle (isIdentChar c) cs

/-- Whether an identifier occurrence of `result` appears in `code`
(spec-side definition, for comparison with the source's substring test). -/
def hasIdentifierResult (code : String) : Bool :=
  hasIdentOccAux "result".data false code.data

/-! ## Sandboxed executor (`pipeline/nodes/code.py`, `execute_code`)

The dynamic `exec` of arbitrary Python is an external effect; its observable
outcome at the executor's boundary is either a raised exception or a
completed run that may or may not have bound `result` in the namespace.
That outcome is the `ExecBehavior` parameter.  Everything the executor does
around that outcome is embedded below. -/

/-- A scalar Python value as the serializer distinguishes them:
native `int`/`str`/`bool`, a numpy integer (normalized by
`convert_to_serializable`), or any other object (stringified). -/
inductive PyScalar
  | pInt (n : Int)
  | pStr (s : String)
  | pBool (b : Bool)
  | npInt (n : Int)
  | pyObj (reprStr : String)
  deriving Repr, DecidableEq

/-- `convert_to_serializable` restricted to scalars: numpy integers become
native ints, everything else is unchanged. -/
def convert_to_serializable : PyScalar → PyScalar
  | .npInt n => .pInt n
  | v => v

/-- Is this a native `(int, float, str, bool)` instance? -/
def PyScalar.isPrimitive : PyScalar → Bool
  | .pInt _ => true
  | .pStr _ => true
  | .pBool _ => true
  | _ => false

/-- `str(val)` for the non-primitive fallback of the `value` branch. -/
def PyScalar.pyStr : PyScalar → String
  | .pInt n => toString n
  | .pStr s => s
  | .pBool b => if b then "True" else "False"
  | .npInt n => toString n
  | .pyObj r => r

/-- The value bound to `result`, as the executor's type dispatch sees it:
`None`, a DataFrame (has `to_dict`), a dict, a list or tuple, or a scalar. -/
inductive PyValue
  | pyNone
  | pyDataFrame (records : List (List (String × PyScalar)))
      (columns : List String) (nrows ncols : Nat)
  | pyDict (entries : List (String × PyScalar))
  | pyList (items : List PyScalar)
  | pyTuple (items : List PyScalar)
  | scalar (v : PyScalar)
  deriving Repr, DecidableEq

/-- The serializable envelope `result_data` built by `execute_code` —
a tagged union mirroring the four dict shapes the source constructs. -/
inductive ResultData
  | dataframe (data : List (List (String × PyScalar)))
      (columns : List String) (shape : List Nat)
  | dict (data : List (String × PyScalar))
  | list (data : List PyScalar)
  | value (data : PyScalar)
  deriving Repr, DecidableEq

/-- `result_data.get("type")`. -/
def ResultData.typeTag : ResultData → String
  | .dataframe .. => "dataframe"
  | .dict _ => "dict"
  | .list _ => "list"
  | .value _ => "value"

/-- The `execution_result` dict.  Each field is `some` exactly when the
corresponding key is present in the dict the source builds. -/
structure ExecutionResult where
  success : Bool
  error : Option String
  tb : Option String
  execution_time_ms : Option Nat
  deriving Repr, DecidableEq

/-- The partial state update returned by `execute_code`. -/
structure ExecOutput where
  execution_result : ExecutionResult
  result_data : Option ResultData
  errors : List String
  deriving Repr, DecidableEq

/-- Outcome of `exec(code, namespace)`: a raised exception (with `str(e)`
and `traceback.format_exc()`), or completion with the binding that the
namespace then holds for `"result"` (`none` = name never bound;
`some .pyNone` = bound to `None`). -/
inductive ExecBehavior
  | raises (errMsg trace : String)
  | completes (resultBinding : Option PyValue)
  deriving Repr, DecidableEq

/-- Serialization of a non-`None` result value, following the source's
`hasattr(result, "to_dict")` / `isinstance` dispatch. -/
def serializeResult : PyValue → Option ResultData
  | .pyNone => none
  | .pyDataFrame records columns nrows ncols =>
    some (.dataframe (records.map fun row =>
      row.map fun kv => (kv.1, convert_to_serializable kv.2)) columns [nrows, ncols])
  | .pyDict entries =>
    some (.dict (entries.map fun kv => (kv.1, convert_to_serializable kv.2)))
  | .pyList items => some (.list (items.map convert_to_serializable))
  | .pyTuple items => some (.list (items.map convert_to_serializable))
  | .scalar v =>
    let val := convert_to_serializable v
    some (.value (if val.isPrimitive then val else .pStr val.pyStr))

/-- `execute_code` from `pipeline/nodes/code.py`.  `timeMs` is the measured
wall-clock duration (external), `behavior` the outcome of the `exec` call. -/
def execute_code (behavior : ExecBehavior) (timeMs : Nat)
    (generated_code : Option String) (code_valid : Bool) : ExecOutput :=
  let code := generated_code.getD ""
  if code = "" ∨ code_valid = false then
    { execution_result :=
        { success := false, error := some "No valid code to execute",
          tb := none, execution_time_ms := none },
      result_data := none, errors := [] }
  else
    match behavior with
    | .raises errMsg trace =>
      { execution_result :=
          { success := false, error := some errMsg, tb := some trace,
            execution_time_ms := some timeMs },
        result_data := none,
        errors := ["Execution error: " ++ errMsg] }
    | .completes binding =>
      -- `result = namespace.get("result")`: an absent binding and a binding
      -- to `None` both yield Python `None` here.
      let result := binding.getD .pyNone
      if result = .pyNone then
        { execution_result :=
            { success := false, error := some "No result variable defined",
              tb := none, execution_time_ms := some timeMs },
          result_data := none, errors := [] }
      else
        { execution_result :=
            { success := true, error := none, tb := none,
              execution_time_ms := some timeMs },
          result_data := serializeResult result, errors := [] }

/-! ## Output nodes (`pipeline/nodes/explain.py`) -/

/-- The mojibake bullet literal `â€¢` that the source prepends to each error
line in `handle_error` (the UTF-8 bytes of `•` decoded as Latin-1). -/
def bulletMark : String := "â€¢ "

/-- `handle_error` from `pipeline/nodes/explain.py`: the user-facing message
stored into both `explanation` and `final_response`. -/
def handle_error (errors validation_errors : List String) : String :=
  let all_errors := errors ++ validation_errors
  let all_errors :=
    if all_errors.isEmpty then ["An unknown error occurred during analysis"]
    else all_errors
  "I wasn't able to complete your analysis:\n\n" ++
    String.intercalate "\n" ((all_errors.take 3).map fun e => bulletMark ++ e) ++
    "\n\nPlease try rephrasing your question or check if the data contains the requested columns."

/-- Python truthiness of an `Optional[str]` (`None` and `""` are falsy). -/
def pyStrTruthy : Option String → Bool
  | none => false
  | some s => !(s == "")

/-- The chart emoji prefix of the row-count summary line in `return_chat`. -/
def chartMark : String := "📊"

/-- `return_chat` from `pipeline/nodes/explain.py`, producing `final_response`.

The node reads `explanation` (possibly `None`), `result_data` (possibly
absent/`None`) and `errors`.  When the base response is `None` and a
non-empty dataframe summary must be appended, the source's `+=` on `None`
raises a `TypeError`; that crash is the `.error` case.  `chatBaseOf` is the
`final_response` value before the optional row-count summary is appended. -/
def chatBaseOf (explanation : Option String) (errors : List String) :
    Option String :=
  if !errors.isEmpty && !pyStrTruthy explanation then
    some ("I encountered some issues while processing your request:\n" ++
      String.intercalate "\n" (errors.map fun e => "- " ++ e))
  else explanation

def return_chat (explanation : Option String) (result_data : Option ResultData)
    (errors : List String) : Except String (Option String) :=
  let final_response : Option String := chatBaseOf explanation errors
  match result_data with
  | some (.dataframe data _ _) =>
    if !data.isEmpty then
      match final_response with
      | some b =>
        .ok (some (b ++ "\n\n" ++ chartMark ++ " *Result: " ++
          toString data.length ++ " rows returned*"))
      | none => .error "TypeError: unsupported operand type(s) for +="
    else .ok final_response
  | _ => .ok final_response

/-! ## Planning fallback (`pipeline/nodes/planning.py`, `analyze_intent`) -/

/-- A file-metadata dict as `analyze_intent` reads it: only the `filename`
key matters to the fallback path (`{}` has `filename := none`). -/
structure FileMeta where
  filename : Option String
  deriving Repr, DecidableEq

/-- The partial state update returned by `analyze_intent`. -/
structure IntentOutput where
  intent : String
  operation_type : String
  files_to_use : List String
  errors : List String
  deriving Repr, DecidableEq

/-- The parsed JSON object of a successful Oracle response (each key may be
missing, in which case the source's `.get` defaults apply). -/
structure IntentParsed where
  intent : Option String
  operation_type : Option String
  files_needed : Option (List String)
  deriving Repr, DecidableEq

/-- `analyze_intent` from `pipeline/nodes/planning.py`.

`oracle` is the outcome of the `try` block up to and including JSON parsing:
`.ok parsed` on success, `.error msg` when any exception with text `msg` was
raised (LLM failure or unparseable JSON).  `available_files` is `none` when
the state lacks the key (so `state.get("available_files", [{}])` yields
`[{}]`).  The fallback path indexes `[0]` into that list, which raises an
uncaught `IndexError` when the list is empty — modelled by the `.error`
result of the whole node. -/
def analyze_intent (oracle : Except String IntentParsed)
    (available_files : Option (List FileMeta)) : Except String IntentOutput :=
  match oracle with
  | .ok parsed =>
    .ok { intent := parsed.intent.getD "query",
          operation_type := parsed.operation_type.getD "single_table",
          files_to_use := parsed.files_needed.getD [],
          errors := [] }
  | .error msg =>
    match available_files.getD [{ filename := none }] with
    | [] => .error "IndexError: list index out of range"
    | f :: _ =>
      let first_file := f.filename.getD ""
      .ok { intent := "query",
            operation_type := "single_table",
            files_to_use := if first_file = "" then [] else [first_file],
            errors := ["Intent analysis error: " ++ msg] }

/-! ## Workflow graph (`pipeline/graph.py`)

The graph's nodes, the conditional-edge functions (which return node-name
strings, as in the source), the label→node maps passed to
`add_conditional_edges`, and a small-step relation `Step` over the fields of
`GraphState` that the routing logic and the retry loop read or write.

Per the LangGraph merge semantics of `GraphState`, a node's returned dict
updates only the keys it contains: `retry_count` is written only by
`increment_retry`, `code_valid` only by `validate_code`, `execution_result`
only by `execute_code`, `operation_type` only by the planning nodes and
`plan` only by `plan_analysis`.  All other state fields are irrelevant to
routing and are not modelled. -/

inductive Node
  | ingest_query | parse_files | retrieve_context | analyze_intent
  | plan_analysis | align_timeseries | generate_code | increment_retry
  | validate_code | execute_code | trend_analysis | explain_result
  | return_chat | handle_error | END
  deriving Repr, DecidableEq

/-- The routing-relevant fields of `GraphState`. -/
structure PipeState where
  codeValid : Bool
  execSuccess : Bool
  retryCount : Nat
  opType : String
  alignNeeded : Bool
  deriving Repr, DecidableEq

/-- `should_align_timeseries` from `pipeline/graph.py`. -/
def should_align_timeseries (s : PipeState) : String :=
  if s.opType = "cross_table" ∨ s.opType = "temporal" then
    if s.alignNeeded then "align_timeseries" else "generate_code"
  else "generate_code"

/-- `check_code_validity` from `pipeline/graph.py`. -/
def check_code_validity (s : PipeState) : String :=
  if s.codeValid then "execute_code"
  else if s.retryCount < 2 then "generate_code"
  else "handle_error"

/-- `check_execution_success` from `pipeline/graph.py`. -/
def check_execution_success (s : PipeState) : String :=
  if s.execSuccess then "explain_result" else "handle_error"

/-- The label map of the `plan_analysis` conditional edge in `build_graph`. -/
def condA_target (lbl : String) : Node :=
  if lbl = "align_timeseries" then .align_timeseries else .generate_code

/-- The label map of the `validate_code` conditional edge in `build_graph`:
the label `"generate_code"` is routed to the `increment_retry` node. -/
def condB_target (lbl : String) : Node :=
  if lbl = "execute_code" then .execute_code
  else if lbl = "generate_code" then .increment_retry
  else .handle_error

/-- The label map of the `execute_code` conditional edge in `build_graph`:
the label `"explain_result"` is routed to `trend_analysis` first. -/
def condC_target (lbl : String) : Node :=
  if lbl = "explain_result" then .trend_analysis else .handle_error

/-- One transition of the compiled graph: the edges added in `build_graph`,
with each node's effect on the modelled fields.  Oracle- and data-dependent
outcomes (operation type, plan flag, validation verdict, execution success)
are universally quantified in the constructors. -/
inductive Step : Node × PipeState → Node × PipeState → Prop
  | ingest (s : PipeState) :
      Step (.ingest_query, s) (.parse_files, s)
  | parse (s : PipeState) :
      Step (.parse_files, s) (.retrieve_context, s)
  | retrieve (s : PipeState) :
      Step (.retrieve_context, s) (.analyze_intent, s)
  | analyze (s : PipeState) (op : String) :
      Step (.analyze_intent, s) (.plan_analysis, { s with opType := op })
  | plan (s : PipeState) (a : Bool) :
      Step (.plan_analysis, s)
        (condA_target (should_align_timeseries { s with alignNeeded := a }),
          { s with alignNeeded := a })
  | align (s : PipeState) :
      Step (.align_timeseries, s) (.generate_code, s)
  | generate (s : PipeState) :
      Step (.generate_code, s) (.validate_code, s)
  | validate (s : PipeState) (v : Bool) :
      Step (.validate_code, s)
        (condB_target (check_code_validity { s with codeValid := v }),
          { s with codeValid := v })
  | increment (s : PipeState) :
      Step (.increment_retry, s)
        (.generate_code, { s with retryCount := s.retryCount + 1 })
  | execute (s : PipeState) (e : Bool) :
      Step (.execute_code, s)
        (condC_target (check_execution_success { s with execSuccess := e }),
          { s with execSuccess := e })
  | trend (s : PipeState) :
      Step (.trend_analysis, s) (.explain_result, s)
  | explain (s : PipeState) :
      Step (.explain_result, s) (.return_chat, s)
  | handle (s : PipeState) :
      Step (.handle_error, s) (.return_chat, s)
  | ret (s : PipeState) :
      Step (.return_chat, s) (.END, s)

/-- Reachability along graph edges. -/
def Reach : Node × PipeState → Node × PipeState → Prop :=
  Relation.ReflTransGen Step

/-- A finite run of the graph recording the list of visited nodes
(`node_history`), start node/state first. -/
inductive Trace : Node → PipeState → List Node → Node → PipeState → Prop
  | nil (n : Node) (s : PipeState) : Trace n s [n] n s
  | cons {n : Node} {s : PipeState} {m : Node} {t : PipeState}
      {l : List Node} {e : Node} {u : PipeState} :
      Step (n, s) (m, t) → Trace m t l e u → Trace n s (n :: l) e u

/-- The initial `retry_count` from `create_initial_state` (`pipeline/state.py`). -/
def initialRetryCount : Nat := 0

/-- Number of `generate_code` visits (generation attempts) in a node
history. -/
def countGen : List Node → Nat
  | [] => 0
  | n :: l => (if n = .generate_code then 1 else 0) + countGen l

/-- Upper bound on the number of `generate_code` visits still possible from
a given node and retry count. -/
def genBound : Node → Nat → Nat
  | .generate_code, r => 1 + (2 - r)
  | .validate_code, r => 2 - r
  | .increment_retry, r => 1 + (2 - (r + 1))
  | .execute_code, _ => 0
  | .trend_analysis, _ => 0
  | .explain_result, _ => 0
  | .return_chat, _ => 0
  | .handle_error, _ => 0
  | .END, _ => 0
  | _, r => 1 + (2 - r)

/-! ## Cache key derivation (`backend/app/core/cache.py`) -/

/-- Python's `sorted` on a list of ints (ascending, stable). -/
def pySorted (l : List Int) : List Int := List.insertionSort (· ≤ ·) l

/-- Python's `str` of a list of ints, as interpolated by the f-string
`f"{query}:{sorted(file_ids)}"`. -/
def pyIntListRepr (l : List Int) : String :=
  "[" ++ String.intercalate ", " (l.map toString) ++ "]"

/-- `_hash_query` from `CacheService` (`backend/app/core/cache.py`).
`md5hex` is `hashlib.md5(·).hexdigest()` on the UTF-8 bytes of the content
string — an external, deterministic function, passed as a parameter. -/
def hash_query (md5hex : String → String) (query : String)
    (file_ids : List Int) : String :=
  let content := query ++ ":" ++ pyIntListRepr (pySorted file_ids)
  (md5hex content).take 16

/-- `_analysis_key` from `CacheService`. -/
def analysis_key (session_id query_hash : String) : String :=
  "analysis:" ++ session_id ++ ":" ++ query_hash

/-- The cache key computed by `get_analysis_result`. -/
def get_analysis_result_key (md5hex : String → String) (session_id : String)
    (query : String) (file_ids : List Int) : String :=
  analysis_key session_id (hash_query md5hex query file_ids)

/-- The cache key computed by `set_analysis_result`. -/
def set_analysis_result_key (md5hex : String → String) (session_id : String)
    (query : String) (file_ids : List Int) : String :=
  analysis_key session_id (hash_query md5hex query file_ids)

/-! ## Fixed-window rate limiter (`backend/app/core/cache.py`, `check_rate_limit`)

The Redis counter for one identifier is modelled explicitly: absent, or
present with a count and an optional absolute expiry time.  `INCR` on an
absent key creates it at 1 with no TTL; `EXPIRE` stamps an expiry; a key
whose expiry time has been reached is evicted before a command touches it. -/

inductive RedisKey
  | absent
  | present (count : Nat) (expireAt : Option Nat)
  deriving Repr, DecidableEq

/-- Lazy expiration: a key whose expiry time is ≤ now is gone. -/
def RedisKey.evict (now : Nat) : RedisKey → RedisKey
  | .present c (some e) => if e ≤ now then .absent else .present c (some e)
  | k => k

/-- Redis `INCR`: returns the post-increment value. -/
def RedisKey.incr : RedisKey → Nat × RedisKey
  | .absent => (1, .present 1 none)
  | .present c e => (c + 1, .present (c + 1) e)

/-- Redis `EXPIRE key seconds` (stamped as an absolute time here). -/
def RedisKey.expireCmd (at_ : Nat) : RedisKey → RedisKey
  | .absent => .absent
  | .present c _ => .present c (some at_)

/-- The expiry stamp of a key, if any. -/
def RedisKey.expiry : RedisKey → Option Nat
  | .absent => none
  | .present _ e => e

/-- `check_rate_limit` from `CacheService`, at time `now`, for one
identifier whose counter key currently holds `k`.  Returns
`((is_allowed, remaining), new key state)`. -/
def check_rate_limit (now limit window_seconds : Nat) (k : RedisKey) :
    (Bool × Nat) × RedisKey :=
  let k0 := k.evict now
  let (current, k1) := k0.incr
  let k2 := if current = 1 then k1.expireCmd (now + window_seconds) else k1
  ((decide (current ≤ limit), limit - current), k2)

/-- A sequence of `check_rate_limit` calls at the given times, threading the
key state; returns the list of results and the final key state. -/
def callSeq (limit window_seconds : Nat) :
    List Nat → RedisKey → List (Bool × Nat) × RedisKey
  | [], k => ([], k)
  | t :: ts, k =>
    let r := check_rate_limit t limit window_seconds k
    let rest := callSeq limit window_seconds ts r.2
    (r.1 :: rest.1, rest.2)

/-! ## Helper lemmas -/

theorem charsStartWith_nil {l : List Char} (h : charsStartWith l [] = true) :
    l = [] := by
  cases l with
  | nil => rfl
  | cons c cs => simp [charsStartWith] at h

theorem pyIn_right_empty {needle : String} (h : pyIn needle "" = true) :
    needle = "" := by
  obtain ⟨l⟩ := needle
  have : l = [] := charsStartWith_nil (by simpa [pyIn, charsContain] using h)
  simp [this]

theorem pyLower_empty : pyLower "" = "" := rfl

theorem pyLower_eq_empty {s : String} (h : pyLower s = "") : s = "" := by
  obtain ⟨l⟩ := s
  have : l.map charLower = [] := by
    have := congrArg String.data h
    simpa [pyLower] using this
  have : l = [] := by simpa using List.map_eq_nil_iff.mp this
  simp [this]

theorem data_append (s t : String) : (s ++ t).data = s.data ++ t.data := by
  cases s; cases t; rfl

theorem mem_forbiddenErrorsOf {p c : String} (hp : p ∈ FORBIDDEN_PATTERNS)
    (hin : pyInCI p c = true) :
    ("Forbidden pattern detected: " ++ p) ∈ forbiddenErrorsOf c := by
  refine List.mem_filterMap.2 ⟨p, hp, ?_⟩
  simp [pyInCI] at hin
  simp [hin]

theorem validate_code_of_error {compileRes : String → Option String}
    {c msg : String} (hc : ¬ c = "")
    (hmem : msg ∈ validationErrorsOf compileRes c) :
    validate_code compileRes (some c) =
      ⟨false, validationErrorsOf compileRes c, none⟩ := by
  have hne : ¬ ((validationErrorsOf compileRes c).isEmpty = true) := by
    simp [List.isEmpty_iff]
    exact List.ne_nil_of_mem hmem
  simp [validate_code, hc, hne]

/-- C2 helper: no denylist pattern matches the empty code text. -/
theorem not_pyInCI_of_forbidden_empty {p : String} (hp : p ∈ FORBIDDEN_PATTERNS)
    (hin : pyInCI p "" = true) : False := by
  have hlow : pyLower p = "" := pyIn_right_empty (by simpa [pyInCI, pyLower_empty] using hin)
  have hpe : p = "" := pyLower_eq_empty hlow
  subst hpe
  simp [FORBIDDEN_PATTERNS] at hp

/-! ## Claim theorems -/

/-- C2 (counterexample): the validator does *not* reject every code text
lacking an identifier named `result`: the text `results = 1` contains no
identifier `result` (only `results`), compiles, matches no denylist entry —
yet `validate_code` accepts it, because the source's check is the plain
substring test `"result" not in code`. -/
theorem C2_counterexample :
    hasIdentifierResult "results = 1" = false ∧
    validate_code (fun _ => none) (some "results = 1") =
      ⟨true, [], some "results = 1"⟩ := by
  constructor
  · decide
  · decide

/-- C2 (amended): for every code text, `validate_code` returns
`code_valid = false` if a denylist pattern occurs case-insensitively (with a
`Forbidden pattern detected` entry in `validation_errors`), if the compile
check reports a syntax error, or if the *substring* `result` does not occur
in the code; in particular `os.system` code is rejected with a
forbidden-pattern error. -/
theorem C2_validate_code_rejections (compileRes : String → Option String)
    (c : String) :
    (∀ p, p ∈ FORBIDDEN_PATTERNS → pyInCI p c = true →
      (validate_code compileRes (some c)).code_valid = false ∧
        ("Forbidden pattern detected: " ++ p) ∈
          (validate_code compileRes (some c)).validation_errors) ∧
    (∀ msg, compileRes c = some msg →
      (validate_code compileRes (some c)).code_valid = false ∧
      (c ≠ "" → ("Syntax error: " ++ msg) ∈
        (validate_code compileRes (some c)).validation_errors)) ∧
    (pyIn "result" c = false →
      (validate_code compileRes (some c)).code_valid = false ∧
      (c ≠ "" → "Code must define a 'result' variable" ∈
        (validate_code compileRes (some c)).validation_errors)) ∧
    (pyInCI "os.system" c = true →
      (validate_code compileRes (some c)).code_valid = false ∧
        ("Forbidden pattern detected: " ++ "os.system") ∈
          (validate_code compileRes (some c)).validation_errors) := by
  have forb : ∀ p, p ∈ FORBIDDEN_PATTERNS → pyInCI p c = true →
      (validate_code compileRes (some c)).code_valid = false ∧
        ("Forbidden pattern detected: " ++ p) ∈
          (validate_code compileRes (some c)).validation_errors := by
    intro p hp hin
    by_cases hc : c = ""
    · exact absurd (hc ▸ hin) (fun h => not_pyInCI_of_forbidden_empty hp h)
    · have hmem : ("Forbidden pattern detected: " ++ p) ∈
          validationErrorsOf compileRes c := by
        unfold validationErrorsOf
        exact List.mem_append_left _
          (List.mem_append_left _ (mem_forbiddenErrorsOf hp hin))
      rw [validate_code_of_error hc hmem]
      exact ⟨rfl, hmem⟩
  refine ⟨forb, ?_, ?_, fun h => forb "os.system" (by decide) h⟩
  · intro msg hmsg
    by_cases hc : c = ""
    · subst hc
      refine ⟨?_, fun h => absurd rfl h⟩
      simp [validate_code]
    · have hmem : ("Syntax error: " ++ msg) ∈ validationErrorsOf compileRes c := by
        unfold validationErrorsOf syntaxErrorsOf
        rw [hmsg]
        exact List.mem_append_left _ (List.mem_append_right _ (by simp))
      rw [validate_code_of_error hc hmem]
      exact ⟨rfl, fun _ => hmem⟩
  · intro hres
    by_cases hc : c = ""
    · subst hc
      refine ⟨?_, fun h => absurd rfl h⟩
      simp [validate_code]
    · have hmem : "Code must define a 'result' variable" ∈
          validationErrorsOf compileRes c := by
        unfold validationErrorsOf resultErrorsOf
        rw [hres]
        simp
      rw [validate_code_of_error hc hmem]
      exact ⟨rfl, fun _ => hmem⟩

/-- Witness for C2: concrete code using `os.system` is rejected with the
forbidden-pattern error. -/
theorem C2_witness :
    (validate_code (fun _ => none)
      (some "result = os.system('ls')")).code_valid = false ∧
    ("Forbidden pattern detected: " ++ "os.system") ∈
      (validate_code (fun _ => none)
        (some "result = os.system('ls')")).validation_errors :=
  (C2_validate_code_rejections (fun _ => none)
    "result = os.system('ls')").2.2.2 (by decide)

/-- C5: for every validated code text handed to `execute_code` (non-empty
code, `code_valid = true`): a raised exception is caught and recorded as
`success = false` with the error text and traceback; completion without a
`result` binding yields `success = false` with the `No result variable
defined` error; and every outcome carries an `execution_time_ms`
measurement. -/
theorem C5_execute_code_outcomes (behavior : ExecBehavior) (timeMs : Nat)
    (c : String) (hc : c ≠ "") :
    (∀ errMsg trace, behavior = .raises errMsg trace →
      execute_code behavior timeMs (some c) true =
        ⟨⟨false, some errMsg, some trace, some timeMs⟩, none,
          ["Execution error: " ++ errMsg]⟩) ∧
    (behavior = .completes none →
      execute_code behavior timeMs (some c) true =
        ⟨⟨false, some "No result variable defined", none, some timeMs⟩,
          none, []⟩) ∧
    (execute_code behavior timeMs (some c) true).execution_result.execution_time_ms
      = some timeMs := by
  have hcond : ¬ ((some c : Option String).getD "" = "" ∨ (true : Bool) = false) := by
    simp [hc]
  refine ⟨?_, ?_, ?_⟩
  · rintro errMsg trace rfl
    simp [execute_code, hcond, hc]
  · rintro rfl
    simp [execute_code, hcond, hc]
  · cases behavior with
    | raises errMsg trace => simp [execute_code, hcond, hc]
    | completes binding =>
      by_cases hb : binding.getD .pyNone = .pyNone
      · simp [execute_code, hcond, hb, hc]
      · simp [execute_code, hcond, hb, hc]

/-- Witness for C5: completion without a `result` binding, at concrete
inputs. -/
theorem C5_witness :
    execute_code (.completes none) 5 (some "x = 1") true =
      ⟨⟨false, some "No result variable defined", none, some 5⟩, none, []⟩ :=
  (C5_execute_code_outcomes (.completes none) 5 "x = 1" (by decide)).2.1 rfl

/-- C10: at the executor's boundary, a run that explicitly bound `result`
to `None` is indistinguishable from one that never bound `result`: the exact
same failure envelope (`success = false`, `No result variable defined`)
results, and a successful envelope always carries a payload. -/
theorem C10_none_binding (timeMs : Nat) (code : Option String)
    (code_valid : Bool) :
    execute_code (.completes (some .pyNone)) timeMs code code_valid =
      execute_code (.completes none) timeMs code code_valid ∧
    (∀ c, c ≠ "" → code = some c → code_valid = true →
      (execute_code (.completes (some .pyNone)) timeMs code code_valid).execution_result =
        ⟨false, some "No result variable defined", none, some timeMs⟩) ∧
    (∀ behavior,
      (execute_code behavior timeMs code code_valid).execution_result.success = true →
      (execute_code behavior timeMs code code_valid).result_data.isSome = true) := by
  refine ⟨rfl, ?_, ?_⟩
  · rintro c hc rfl rfl
    have hcond : ¬ ((some c : Option String).getD "" = "" ∨ (true : Bool) = false) := by
      simp [hc]
    simp [execute_code, hcond, hc]
  · intro behavior hsucc
    by_cases hcond : (code.getD "" = "" ∨ code_valid = false)
    · simp [execute_code, hcond] at hsucc
    · push_neg at hcond
      obtain ⟨h1, h2⟩ := hcond
      cases behavior with
      | raises errMsg trace => simp [execute_code, h1, h2] at hsucc
      | completes binding =>
        by_cases hb : binding.getD .pyNone = .pyNone
        · simp [execute_code, h1, h2, hb] at hsucc
        · simp [execute_code, h1, h2, hb] at hsucc ⊢
          cases h : binding.getD .pyNone with
          | pyNone => exact absurd h hb
          | pyDataFrame records columns nrows ncols => simp [serializeResult]
          | pyDict entries => simp [serializeResult]
          | pyList items => simp [serializeResult]
          | pyTuple items => simp [serializeResult]
          | scalar v => simp [serializeResult]

/-- Witness for C10: a `result = None` run and a no-`result` run produce
the same concrete failure output. -/
theorem C10_witness :
    (execute_code (.completes (some .pyNone)) 7 (some "result = None") true).execution_result =
      ⟨false, some "No result variable defined", none, some 7⟩ :=
  (C10_none_binding 7 (some "result = None") true).2.1 "result = None"
    (by decide) rfl rfl

/-- C3 (code evaluated at the failing input): when the Oracle call fails,
`analyze_intent`'s fallback produces the deterministic default
(`intent = query`, `operation_type = single_table`,
`files_to_use = [first file]` or `[]`) and records the failure in `errors` —
but only when `available_files` is non-empty (or the key is absent).  With
an *empty* `available_files` list, the fallback's
`state.get("available_files", [{}])[0]` raises an uncaught `IndexError`,
so the node does not return at all. -/
theorem C3_analyze_intent_fallback :
    analyze_intent (.error "LLM provider error") (some []) =
      .error "IndexError: list index out of range" ∧
    (∀ msg f fs, analyze_intent (.error msg) (some (f :: fs)) =
      .ok { intent := "query", operation_type := "single_table",
            files_to_use :=
              if f.filename.getD "" = "" then [] else [f.filename.getD ""],
            errors := ["Intent analysis error: " ++ msg] }) ∧
    (∀ msg, analyze_intent (.error msg) none =
      .ok { intent := "query", operation_type := "single_table",
            files_to_use := [],
            errors := ["Intent analysis error: " ++ msg] }) := by
  refine ⟨rfl, ?_, ?_⟩
  · intro msg f fs
    simp [analyze_intent]
  · intro msg
    simp [analyze_intent]

theorem handle_error_ne_empty (errors validation_errors : List String) :
    handle_error errors validation_errors ≠ "" := by
  intro h
  have h2 : (handle_error errors validation_errors).data = [] := by
    rw [h]
  simp only [handle_error, data_append] at h2
  rcases List.append_eq_nil.mp h2 with ⟨h3, _⟩
  rcases List.append_eq_nil.mp h3 with ⟨h4, _⟩
  exact absurd h4 (by decide)

/-- C6: `handle_error` builds its message from `errors ++ validationErrors`,
listing only the first 3 entries in their original order, and the message
is non-empty even when both lists are empty, falling back to an
`unknown error occurred` entry. -/
theorem C6_handle_error_message (errors validation_errors : List String) :
    (errors ++ validation_errors ≠ [] →
      handle_error errors validation_errors =
        "I wasn't able to complete your analysis:\n\n" ++
          String.intercalate "\n"
            (((errors ++ validation_errors).take 3).map fun e => bulletMark ++ e) ++
          "\n\nPlease try rephrasing your question or check if the data contains the requested columns.") ∧
    handle_error errors validation_errors ≠ "" ∧
    (errors ++ validation_errors = [] →
      pyIn "unknown error occurred" (handle_error errors validation_errors) = true) := by
  refine ⟨?_, handle_error_ne_empty errors validation_errors, ?_⟩
  · intro h
    have hne : (errors ++ validation_errors).isEmpty = false := by
      simp [List.isEmpty_iff, h]
    simp [handle_error, hne]
  · intro h
    rcases List.append_eq_nil.mp h with ⟨h1, h2⟩
    subst h1; subst h2
    decide

/-- Witness for C6: concrete error lists; only the first three entries
appear and the empty case mentions an unknown error. -/
theorem C6_witness :
    handle_error ["e1", "e2"] ["v1"] =
      "I wasn't able to complete your analysis:\n\n" ++
        String.intercalate "\n"
          ((["e1", "e2", "v1"].take 3).map fun e => bulletMark ++ e) ++
        "\n\nPlease try rephrasing your question or check if the data contains the requested columns." ∧
    pyIn "unknown error occurred" (handle_error [] []) = true :=
  ⟨(C6_handle_error_message ["e1", "e2"] ["v1"]).1 (by decide),
    (C6_handle_error_message [] []).2.2 rfl⟩

/-- C7: `return_chat` builds `final_response` from `explanation` when it is
present (non-`None`, non-empty), otherwise from the accumulated `errors`
list; and whenever `result_data` is a dataframe with a non-empty `data`
list of `n` rows, a `n rows returned` summary line is appended. -/
theorem C7_return_chat_response (explanation : Option String)
    (rd : Option ResultData) (errors : List String) :
    (pyStrTruthy explanation = true → chatBaseOf explanation errors = explanation) ∧
    (pyStrTruthy explanation = false → errors ≠ [] →
      chatBaseOf explanation errors =
        some ("I encountered some issues while processing your request:\n" ++
          String.intercalate "\n" (errors.map fun e => "- " ++ e))) ∧
    (∀ data columns shape b,
      rd = some (.dataframe data columns shape) → data ≠ [] →
      chatBaseOf explanation errors = some b →
      return_chat explanation rd errors =
        .ok (some (b ++ "\n\n" ++ chartMark ++ " *Result: " ++
          toString data.length ++ " rows returned*"))) ∧
    (∀ columns shape, rd = some (.dataframe [] columns shape) →
      return_chat explanation rd errors = .ok (chatBaseOf explanation errors)) := by
  refine ⟨?_, ?_, ?_, ?_⟩
  · intro h
    simp [chatBaseOf, h]
  · intro h herr
    have hne : errors.isEmpty = false := by simp [List.isEmpty_iff, herr]
    simp [chatBaseOf, h, hne]
  · rintro data columns shape b rfl hdata hbase
    have hne : data.isEmpty = false := by simp [List.isEmpty_iff, hdata]
    simp [return_chat, hbase, hne]
  · rintro columns shape rfl
    simp [return_chat]

/-- Witness for C7: a 7-row dataframe result appends a `7 rows returned`
summary to the explanation. -/
theorem C7_witness :
    return_chat (some "Revenue grew.")
      (some (.dataframe (List.replicate 7 []) ["region"] [7, 2])) [] =
      .ok (some ("Revenue grew." ++ "\n\n" ++ chartMark ++ " *Result: " ++
        toString (7 : Nat) ++ " rows returned*")) :=
  (C7_return_chat_response (some "Revenue grew.") _ []).2.2.1
    (List.replicate 7 []) ["region"] [7, 2] "Revenue grew." rfl (by decide) (by decide)

/-! ### Graph routing lemmas -/

theorem condA_target_cases (lbl : String) :
    condA_target lbl = .align_timeseries ∨ condA_target lbl = .generate_code := by
  unfold condA_target
  split_ifs <;> simp

theorem condB_target_cases (lbl : String) :
    condB_target lbl = .execute_code ∨ condB_target lbl = .increment_retry ∨
      condB_target lbl = .handle_error := by
  unfold condB_target
  split_ifs <;> simp

theorem condC_target_cases (lbl : String) :
    condC_target lbl = .trend_analysis ∨ condC_target lbl = .handle_error := by
  unfold condC_target
  split_ifs <;> simp

theorem condB_route (s : PipeState) :
    (s.codeValid = true → condB_target (check_code_validity s) = .execute_code) ∧
    (s.codeValid = false → s.retryCount < 2 →
      condB_target (check_code_validity s) = .increment_retry) ∧
    (s.codeValid = false → 2 ≤ s.retryCount →
      condB_target (check_code_validity s) = .handle_error) := by
  refine ⟨?_, ?_, ?_⟩
  · intro h
    simp [check_code_validity, condB_target, h]
  · intro h h2
    simp [check_code_validity, condB_target, h, h2]
  · intro h h2
    have h3 : ¬ s.retryCount < 2 := by omega
    simp [check_code_validity, condB_target, h, h3]

theorem condC_route (s : PipeState) :
    (s.execSuccess = true →
      condC_target (check_execution_success s) = .trend_analysis) ∧
    (s.execSuccess = false →
      condC_target (check_execution_success s) = .handle_error) := by
  constructor
  · intro h
    simp [check_execution_success, condC_target, h]
  · intro h
    simp [check_execution_success, condC_target, h]

theorem target_increment_inv (s : PipeState)
    (h : condB_target (check_code_validity s) = .increment_retry) :
    s.codeValid = false ∧ s.retryCount < 2 := by
  by_cases hv : s.codeValid = true
  · rw [(condB_route s).1 hv] at h
    exact absurd h (by decide)
  · have hv' : s.codeValid = false := by simpa using hv
    by_cases hr : s.retryCount < 2
    · exact ⟨hv', hr⟩
    · rw [(condB_route s).2.2 hv' (by omega)] at h
      exact absurd h (by decide)

theorem step_retry_invariant {n1 m1 : Node} {s1 t1 : PipeState}
    (hstep : Step (n1, s1) (m1, t1))
    (h1 : s1.retryCount ≤ 2) (h2 : n1 = .increment_retry → s1.retryCount < 2) :
    t1.retryCount ≤ 2 ∧ (m1 = .increment_retry → t1.retryCount < 2) := by
  cases hstep with
  | ingest s => exact ⟨h1, by simp⟩
  | parse s => exact ⟨h1, by simp⟩
  | retrieve s => exact ⟨h1, by simp⟩
  | analyze s op => exact ⟨h1, by simp⟩
  | plan s a2 =>
    refine ⟨h1, fun hn => ?_⟩
    rcases condA_target_cases
        (should_align_timeseries { s1 with alignNeeded := a2 }) with h | h <;>
      rw [h] at hn <;> simp at hn
  | align s => exact ⟨h1, by simp⟩
  | generate s => exact ⟨h1, by simp⟩
  | validate s v =>
    exact ⟨h1, fun hn => (target_increment_inv _ hn).2⟩
  | increment s =>
    have hlt := h2 rfl
    refine ⟨?_, by simp⟩
    show s1.retryCount + 1 ≤ 2
    omega
  | execute s e =>
    refine ⟨h1, fun hn => ?_⟩
    rcases condC_target_cases
        (check_execution_success { s1 with execSuccess := e }) with h | h <;>
      rw [h] at hn <;> simp at hn
  | trend s => exact ⟨h1, by simp⟩
  | explain s => exact ⟨h1, by simp⟩
  | handle s => exact ⟨h1, by simp⟩
  | ret s => exact ⟨h1, by simp⟩

theorem reach_retry_le {s0 : PipeState} {p : Node × PipeState}
    (h0 : s0.retryCount = 0) (h : Reach (.ingest_query, s0) p) :
    p.2.retryCount ≤ 2 ∧ (p.1 = .increment_retry → p.2.retryCount < 2) := by
  induction h with
  | refl =>
    refine ⟨?_, fun _ => ?_⟩
    · show s0.retryCount ≤ 2
      omega
    · show s0.retryCount < 2
      omega
  | tail hr hstep ih =>
    rename_i b c
    obtain ⟨mb, sb⟩ := b
    obtain ⟨mc, sc⟩ := c
    exact step_retry_invariant hstep ih.1 ih.2

theorem trace_genBound {n0 : Node} {s0 : PipeState} {l0 : List Node}
    {e0 : Node} {u0 : PipeState} (h : Trace n0 s0 l0 e0 u0) :
    countGen l0 ≤ genBound n0 s0.retryCount := by
  induction h with
  | nil n s => cases n <;> simp [countGen, genBound]
  | cons hstep htrace ih =>
    rename_i n1 s1 m1 t1 l1 e1 u1
    cases hstep with
    | ingest s => simp [countGen, genBound] at ih ⊢; omega
    | parse s => simp [countGen, genBound] at ih ⊢; omega
    | retrieve s => simp [countGen, genBound] at ih ⊢; omega
    | analyze s op => simp [countGen, genBound] at ih ⊢; omega
    | plan s a2 =>
      rcases condA_target_cases
          (should_align_timeseries { s1 with alignNeeded := a2 }) with h | h <;>
        rw [h] at ih <;> simp [countGen, genBound] at ih ⊢ <;> omega
    | align s => simp [countGen, genBound] at ih ⊢; omega
    | generate s => simp [countGen, genBound] at ih ⊢; omega
    | validate s v =>
      rcases condB_target_cases
          (check_code_validity { s1 with codeValid := v }) with h | h | h
      · rw [h] at ih
        simp [countGen, genBound] at ih ⊢
        omega
      · have hlt := (target_increment_inv _ h).2
        rw [h] at ih
        simp [countGen, genBound] at ih hlt ⊢
        omega
      · rw [h] at ih
        simp [countGen, genBound] at ih ⊢
        omega
    | increment s => simp [countGen, genBound] at ih ⊢; omega
    | execute s e =>
      rcases condC_target_cases
          (check_execution_success { s1 with execSuccess := e }) with h | h <;>
        rw [h] at ih <;> simp [countGen, genBound] at ih ⊢ <;> omega
    | trend s => simp [countGen, genBound] at ih ⊢; omega
    | explain s => simp [countGen, genBound] at ih ⊢; omega
    | handle s => simp [countGen, genBound] at ih ⊢; omega
    | ret s => simp [countGen, genBound] at ih ⊢; omega

theorem generate_code_predecessors {n : Node} {s t : PipeState}
    (hstep : Step (n, s) (.generate_code, t)) :
    n = .plan_analysis ∨ n = .align_timeseries ∨ n = .increment_retry := by
  generalize hq : ((Node.generate_code : Node), t) = q at hstep
  cases hstep <;> simp_all
  case validate v =>
    rcases condB_target_cases
        (check_code_validity { s with codeValid := v }) with h | h | h <;> simp_all
  case execute e =>
    rcases condC_target_cases
        (check_execution_success { s with execSuccess := e }) with h | h <;> simp_all

/-- C1: after `validate_code`, `code_valid = true` routes to `execute_code`;
otherwise, when `retry_count < 2`, to `increment_retry`, which adds exactly 1
to `retry_count` and edges unconditionally back to `generate_code`;
otherwise to `handle_error`.  Starting from the initial `retry_count = 0`,
`retry_count` never exceeds 2 at any reachable point (in particular when
`handle_error` is reached from this branch), and every run makes at most 3
generation attempts (visits to `generate_code`). -/
theorem C1_retry_policy :
    (∀ s s' m, Step (.validate_code, s) (m, s') →
      (s'.codeValid = true → m = .execute_code) ∧
      (s'.codeValid = false → s'.retryCount < 2 → m = .increment_retry) ∧
      (s'.codeValid = false → 2 ≤ s'.retryCount → m = .handle_error)) ∧
    (∀ s s' m, Step (.increment_retry, s) (m, s') →
      m = .generate_code ∧ s'.retryCount = s.retryCount + 1) ∧
    (∀ s0 p, s0.retryCount = 0 → Reach (.ingest_query, s0) p →
      p.2.retryCount ≤ 2) ∧
    (∀ s0 l e u, s0.retryCount = 0 → Trace .ingest_query s0 l e u →
      countGen l ≤ 3) := by
  refine ⟨?_, ?_, ?_, ?_⟩
  · intro s s' m hstep
    cases hstep with
    | validate v =>
      refine ⟨fun hv => ?_, fun hv hr => ?_, fun hv hr => ?_⟩
      · exact (condB_route _).1 hv
      · exact (condB_route _).2.1 hv hr
      · exact (condB_route _).2.2 hv hr
  · intro s s' m hstep
    cases hstep with
    | increment => exact ⟨rfl, rfl⟩
  · intro s0 p h0 h
    exact (reach_retry_le h0 h).1
  · intro s0 l e u h0 ht
    have hb := trace_genBound ht
    rw [h0] at hb
    simpa [genBound] using hb

/-- Witness for C1: a valid verdict routes to `execute_code`, and a full
concrete run with one validation failure, one retry and a failed execution
visits `generate_code` twice (≤ 3). -/
theorem C1_witness :
    condB_target (check_code_validity ⟨true, false, 0, "q", false⟩) =
      .execute_code ∧
    countGen [.ingest_query, .parse_files, .retrieve_context, .analyze_intent,
      .plan_analysis, .generate_code, .validate_code, .increment_retry,
      .generate_code, .validate_code, .execute_code, .handle_error,
      .return_chat, .END] ≤ 3 := by
  constructor
  · exact (C1_retry_policy.1 ⟨false, false, 0, "q", false⟩
      ⟨true, false, 0, "q", false⟩ _
      (Step.validate ⟨false, false, 0, "q", false⟩ true)).1 rfl
  · refine C1_retry_policy.2.2.2 ⟨false, false, 0, "q", false⟩ _ .END
      ⟨true, false, 1, "single_table", false⟩ rfl ?_
    exact Trace.cons (Step.ingest _) (Trace.cons (Step.parse _)
      (Trace.cons (Step.retrieve _) (Trace.cons (Step.analyze _ "single_table")
      (Trace.cons (Step.plan _ false) (Trace.cons (Step.generate _)
      (Trace.cons (Step.validate _ false) (Trace.cons (Step.increment _)
      (Trace.cons (Step.generate _) (Trace.cons (Step.validate _ true)
      (Trace.cons (Step.execute _ false) (Trace.cons (Step.handle _)
      (Trace.cons (Step.ret _) (Trace.nil .END _)))))))))))))

/-- C4: after `execute_code`, a successful `execution_result` routes to
`trend_analysis` and then `explain_result`; a failure routes directly to
`handle_error`; the only predecessors of `generate_code` are
`plan_analysis`, `align_timeseries` and `increment_retry` (the back-edge
exists only in the validation branch); and no trace that starts at
`handle_error` ever visits `generate_code`, so execution failure never
triggers regeneration. -/
theorem C4_execution_failure_no_retry :
    (∀ s s' m, Step (.execute_code, s) (m, s') →
      (s'.execSuccess = true → m = .trend_analysis) ∧
      (s'.execSuccess = false → m = .handle_error)) ∧
    (∀ s s' m, Step (.trend_analysis, s) (m, s') → m = .explain_result) ∧
    (∀ n s t, Step (n, s) (.generate_code, t) →
      n = .plan_analysis ∨ n = .align_timeseries ∨ n = .increment_retry) ∧
    (∀ s l e u, Trace .handle_error s l e u → countGen l = 0) := by
  refine ⟨?_, ?_, ?_, ?_⟩
  · intro s s' m hstep
    cases hstep with
    | execute e =>
      exact ⟨fun he => (condC_route _).1 he, fun he => (condC_route _).2 he⟩
  · intro s s' m hstep
    cases hstep with
    | trend => rfl
  · intro n s t hstep
    exact generate_code_predecessors hstep
  · intro s l e u ht
    have hb := trace_genBound ht
    simp only [genBound] at hb
    omega

/-- Witness for C4: a successful execution routes to `trend_analysis`, and
the trivial trace sitting at `handle_error` makes no generation attempt. -/
theorem C4_witness :
    condC_target (check_execution_success ⟨true, true, 0, "q", false⟩) =
      .trend_analysis ∧
    countGen [.handle_error] = 0 := by
  constructor
  · exact (C4_execution_failure_no_retry.1 ⟨true, false, 0, "q", false⟩
      ⟨true, true, 0, "q", false⟩ _
      (Step.execute ⟨true, false, 0, "q", false⟩ true)).1 rfl
  · exact C4_execution_failure_no_retry.2.2.2 ⟨true, false, 2, "q", false⟩ _
      .handle_error ⟨true, false, 2, "q", false⟩
      (Trace.nil .handle_error ⟨true, false, 2, "q", false⟩)

/-! ### Cache key and rate limiter lemmas -/

theorem pySorted_perm_eq {l1 l2 : List Int} (hperm : l1.Perm l2) :
    pySorted l1 = pySorted l2 :=
  List.eq_of_perm_of_sorted
    ((List.perm_insertionSort _ l1).trans
      (hperm.trans (List.perm_insertionSort _ l2).symm))
    (List.sorted_insertionSort _ l1) (List.sorted_insertionSort _ l2)

/-- C8: the analysis cache key is a stable, deterministic function of the
session id, the query text and the *sorted* file-id list: for permuted
file-id lists, `get_analysis_result` and `set_analysis_result` compute the
identical key, and equal inputs always yield the same key. -/
theorem C8_cache_key_stable (md5hex : String → String)
    (session_id query : String) (l1 l2 : List Int) (hperm : l1.Perm l2) :
    get_analysis_result_key md5hex session_id query l1 =
      set_analysis_result_key md5hex session_id query l2 ∧
    get_analysis_result_key md5hex session_id query l1 =
      get_analysis_result_key md5hex session_id query l2 ∧
    (∀ l, get_analysis_result_key md5hex session_id query l =
      set_analysis_result_key md5hex session_id query l) := by
  have hsort := pySorted_perm_eq hperm
  refine ⟨?_, ?_, fun l => rfl⟩ <;>
    simp [get_analysis_result_key, set_analysis_result_key, analysis_key,
      hash_query, hsort]

/-- Witness for C8: permuted concrete file-id lists give the same key. -/
theorem C8_witness :
    get_analysis_result_key (fun s => s) "sess" "top revenue" [3, 1, 2] =
      set_analysis_result_key (fun s => s) "sess" "top revenue" [2, 3, 1] :=
  (C8_cache_key_stable (fun s => s) "sess" "top revenue" [3, 1, 2] [2, 3, 1]
    (by decide)).1

theorem check_rate_limit_live {now limit window c e : Nat}
    (hlt : now < e) (hc : 0 < c) :
    check_rate_limit now limit window (.present c (some e)) =
      ((decide (c + 1 ≤ limit), limit - (c + 1)), .present (c + 1) (some e)) := by
  have h1 : ¬ e ≤ now := by omega
  have h2 : ¬ (c + 1 = 1) := by omega
  simp [check_rate_limit, RedisKey.evict, RedisKey.incr, h1, h2]

theorem check_rate_limit_expired {now limit window c e : Nat} (he : e ≤ now) :
    check_rate_limit now limit window (.present c (some e)) =
      ((decide (1 ≤ limit), limit - 1), .present 1 (some (now + window))) := by
  simp [check_rate_limit, RedisKey.evict, RedisKey.incr, RedisKey.expireCmd, he]

theorem callSeq_state {limit window e : Nat} :
    ∀ (ts : List Nat) (c : Nat), 0 < c → (∀ t ∈ ts, t < e) →
      (callSeq limit window ts (.present c (some e))).2 =
        .present (c + ts.length) (some e) := by
  intro ts
  induction ts with
  | nil =>
    intro c hc h
    simp [callSeq]
  | cons t ts ih =>
    intro c hc h
    have ht : t < e := h t (List.mem_cons_self t ts)
    have hrec := ih (c + 1) (by omega) fun x hx => h x (List.mem_cons_of_mem t hx)
    simp only [callSeq, check_rate_limit_live ht hc, hrec, List.length_cons]
    congr 1
    omega

theorem callSeq_start (limit window t₀ : Nat) (ts : List Nat)
    (h : ∀ x ∈ ts, x < t₀ + window) :
    (callSeq limit window (t₀ :: ts) .absent).2 =
      .present (1 + ts.length) (some (t₀ + window)) := by
  have hfirst : check_rate_limit t₀ limit window .absent =
      ((decide (1 ≤ limit), limit - 1), .present 1 (some (t₀ + window))) := by
    simp [check_rate_limit, RedisKey.evict, RedisKey.incr, RedisKey.expireCmd]
  simp only [callSeq, hfirst]
  exact callSeq_state ts 1 (by omega) h

/-- C9: with the counter store available, the `(limit+1)`-th
`check_rate_limit` call within one window returns `allowed = false` and
`remaining = 0`; the window expiry is stamped exactly on the call whose
post-increment counter equals 1 (all other calls leave the expiry alone);
and once the window has elapsed the next call opens a fresh window with
`allowed = true` and `remaining = limit - 1`. -/
theorem C9_rate_limiter (limit window : Nat) :
    (∀ t₀ ts t, ts.length + 1 = limit → (∀ x ∈ ts, x < t₀ + window) →
      t < t₀ + window →
      (check_rate_limit t limit window
        ((callSeq limit window (t₀ :: ts) .absent).2)).1 = (false, 0)) ∧
    (∀ now k, ((RedisKey.incr (RedisKey.evict now k)).1 = 1 →
        (check_rate_limit now limit window k).2.expiry = some (now + window)) ∧
      ((RedisKey.incr (RedisKey.evict now k)).1 ≠ 1 →
        (check_rate_limit now limit window k).2.expiry =
          (RedisKey.evict now k).expiry)) ∧
    (∀ now c e, e ≤ now → 1 ≤ limit →
      check_rate_limit now limit window (.present c (some e)) =
        ((true, limit - 1), .present 1 (some (now + window)))) := by
  refine ⟨?_, ?_, ?_⟩
  · intro t₀ ts t hlen hts ht
    rw [callSeq_start limit window t₀ ts hts,
      check_rate_limit_live ht (by omega)]
    have h2 : limit - (1 + ts.length + 1) = 0 := by omega
    have h3 : decide (1 + ts.length + 1 ≤ limit) = false := by
      simp only [decide_eq_false_iff_not]
      omega
    rw [h2, h3]
  · intro now k
    constructor
    · intro hone
      cases hk : RedisKey.evict now k with
      | absent =>
        simp [check_rate_limit, hk, RedisKey.incr, RedisKey.expireCmd,
          RedisKey.expiry]
      | present c e0 =>
        rw [hk] at hone
        simp only [RedisKey.incr] at hone
        simp [check_rate_limit, hk, RedisKey.incr, hone, RedisKey.expireCmd,
          RedisKey.expiry]
    · intro hne
      cases hk : RedisKey.evict now k with
      | absent =>
        rw [hk] at hne
        simp [RedisKey.incr] at hne
      | present c e0 =>
        rw [hk] at hne
        simp only [RedisKey.incr] at hne
        simp [check_rate_limit, hk, RedisKey.incr, hne, RedisKey.expiry]
  · intro now c e he hlim
    rw [check_rate_limit_expired he]
    have : decide (1 ≤ limit) = true := by simpa using hlim
    rw [this]

/-- Witness for C9: with `limit = 2`, `window = 10`, calls at times 0, 1
and 2 — the third call is rejected with 0 remaining, and a call at time 20
on a counter whose window expired at time 5 opens a fresh window. -/
theorem C9_witness :
    (check_rate_limit 2 2 10 ((callSeq 2 10 [0, 1] .absent).2)).1 =
      (false, 0) ∧
    check_rate_limit 20 2 10 (.present 2 (some 5)) =
      ((true, 1), .present 1 (some 30)) := by
  constructor
  · exact (C9_rate_limiter 2 10).1 0 [1] 2 (by decide)
      (by intro x hx; simp at hx; omega) (by omega)
  · exact (C9_rate_limiter 2 10).2.2 20 2 5 (by omega) (by omega)

end DataAgent
